import Mathlib

/-!
Shallow embedding of `src/crawl_vitalki.py`, a sequential blog-crawling
pipeline.  External effects are modelled as explicit inputs:

* the network fetch for each article is an `Except String FetchResult`
  (`Except.error` models the fetch call raising an exception, the
  `success` flag inside `FetchResult` models `result.success`);
* the clock sample `datetime.now().strftime("%Y%m%d_%H%M%S")` taken in
  each loop iteration is the `timestamp` string of that iteration's input;
* the sample of `random.random()` is the rational `rand` of the input;
* the external `json.loads` is a parameter `jl : String → Option Json`
  (`none` models `json.JSONDecodeError`).

The driver is turned into a function producing the trace of observable
events (directory creation, network calls, file writes, sleeps, log
lines, process exit), mirroring the control flow of the Python source
line by line.
-/

/-- JSON values, the result of a successful `json.loads`. -/
inductive Json where
  | obj : List (String × Json) → Json
  | arr : List Json → Json
  | str : String → Json
  | num : Int → Json
  | bool : Bool → Json
  | null : Json

/-- Character-list prefix test (model of Python `str.startswith`). -/
def hasPrefixL : List Char → List Char → Bool
  | _, [] => true
  | [], _ :: _ => false
  | c :: cs, p :: ps => (c = p) && hasPrefixL cs ps

/-- Character-list substring test (model of Python `in` on strings). -/
def hasSubstrL : List Char → List Char → Bool
  | [], pat => hasPrefixL [] pat
  | c :: cs, pat => hasPrefixL (c :: cs) pat || hasSubstrL cs pat

/-- Model of Python `pat in s`. -/
def strContains (s pat : String) : Bool := hasSubstrL s.data pat.data

/-- Model of Python `s.startswith(p)`. -/
def strStartsWith (s p : String) : Bool := hasPrefixL s.data p.data

/-- First-match lookup in an association list (model of Python dict access). -/
def jlookup : List (String × Json) → String → Option Json
  | [], _ => none
  | (k, v) :: rest, key => if k = key then some v else jlookup rest key

/-- Does the association list bind the key? -/
def containsKey (d : List (String × Json)) (k : String) : Bool :=
  d.any (fun p => p.1 = k)

/-- Model of a single Python `dict` key assignment as performed by
`dict.update`: an existing key keeps its position and gets the new value,
a fresh key is appended at the end. -/
def setKey (d : List (String × Json)) (k : String) (v : Json) :
    List (String × Json) :=
  if containsKey d k then d.map (fun p => if p.1 = k then (k, v) else p)
  else d ++ [(k, v)]

/-- Model of Python `dict.update`, applying the updates in order. -/
def dictUpdate (d : List (String × Json)) (upds : List (String × Json)) :
    List (String × Json) :=
  upds.foldl (fun acc kv => setKey acc kv.1 kv.2) d

/-- Model of Python `dict.get(k, default)` on a string-valued mapping. -/
def dictGetD (d : List (String × String)) (k dflt : String) : String :=
  match d with
  | [] => dflt
  | (k0, v) :: rest => if k0 = k then v else dictGetD rest k dflt

/-- One hyperlink as reported by the fetch engine (`link['href']`). -/
structure Link where
  href : String
deriving DecidableEq, Repr

/-- Model of `link.get("internal", [])` on the links mapping of the index
page result. -/
def linksGetD (links : List (String × List Link)) (k : String) : List Link :=
  match links with
  | [] => []
  | (k0, v) :: rest => if k0 = k then v else linksGetD rest k

/-- Resolution of a discovered href (`crawl_vitalki.py` lines 69-71):
a relative href gets the fixed base origin prepended. -/
def resolveUrl (href : String) : String :=
  if strStartsWith href "http" = false then "https://vitalik.eth.limo" ++ href
  else href

/-- The discovery loop of `crawl_vitalki.py` lines 66-72, with explicit
accumulator for `article_urls`. -/
def discoverLoop : List Link → List String → List String
  | [], acc => acc
  | link :: rest, acc =>
    if strContains link.href "/posts/" || strContains link.href "/general/" then
      discoverLoop rest (acc ++ [resolveUrl link.href])
    else
      discoverLoop rest acc

/-- Link discovery: iterate over the links the fetch engine classified as
internal, keep those whose href contains one of the two article-section
substrings, and resolve relative hrefs against the base origin. -/
def discoverArticleUrls (links : List (String × List Link)) : List String :=
  discoverLoop (linksGetD links "internal") []

/-- Result of `crawler.arun` for one article (the fields the script
reads). -/
structure FetchResult where
  success : Bool
  error_message : String
  html : String
  markdown : String
  metadata : List (String × String)
  extracted_content : Option String
deriving Repr

/-- Environment of one loop iteration: the outcome of the fetch call
(`Except.error` models `arun` raising), the clock sample used for
`timestamp`, and the `random.random()` sample. -/
structure IterInput where
  fetch : Except String FetchResult
  timestamp : String
  rand : ℚ
deriving Repr

/-- A filesystem path, as built with `pathlib` division: directory part
and file name part. -/
structure FPath where
  dir : String
  name : String
deriving DecidableEq, Repr

/-- The raw snapshot path `raw_dir / f"raw_{timestamp}.json"`. -/
def rawFilename (ts : String) : FPath :=
  ⟨"vitalik_blog_data/raw", "raw_" ++ ts ++ ".json"⟩

/-- The processed record path
`processed_dir / f"processed_{timestamp}.json"`. -/
def processedFilename (ts : String) : FPath :=
  ⟨"vitalik_blog_data/processed", "processed_" ++ ts ++ ".json"⟩

/-- Observable events of a run. -/
inductive Event where
  | logMsg (msg : String)
  | mkdir (path : String)
  | fetchCall (url : String)
  | writeFile (path : FPath) (content : Json)
  | sleepFor (d : ℚ)
  | exitCode (c : Nat)

/-- The metadata mapping serialized into the raw snapshot. -/
def metaJson (md : List (String × String)) : Json :=
  Json.obj (md.map (fun p => (p.1, Json.str p.2)))

/-- The `raw_content` dict of `crawl_vitalki.py` lines 97-103. -/
def rawContentJson (url : String) (r : FetchResult) (ts : String) : Json :=
  Json.obj [("url", Json.str url), ("html", Json.str r.html),
    ("markdown", Json.str r.markdown), ("metadata", metaJson r.metadata),
    ("crawl_date", Json.str ts)]

/-- The `processed_content.update({...})` call of lines 115-120: the four
fields merged from the fetch result, in the order of the dict literal. -/
def mergedFields (fields : List (String × Json)) (url ts : String)
    (md : List (String × String)) : List (String × Json) :=
  dictUpdate fields
    [("url", Json.str url), ("crawl_date", Json.str ts),
     ("title", Json.str (dictGetD md "title" "")),
     ("date_published", Json.str (dictGetD md "date" ""))]

/-- Model of the truthiness test `if result.extracted_content:` on an
optional string: `None` and the empty string are falsy. -/
def truthyStr : Option String → Option String
  | none => none
  | some s => if s = "" then none else some s

/-- Does `processed_content.update(...)` raise for this fetch result?
It does exactly when the extracted content is truthy, parses as JSON, but
the parsed value is not an object (Python `AttributeError`). -/
def updateRaises (jl : String → Option Json) (r : FetchResult) : Bool :=
  match truthyStr r.extracted_content with
  | none => false
  | some ec =>
    match jl ec with
    | none => false
    | some (Json.obj _) => false
    | some _ => true

/-- Event trace of one iteration of the article loop
(`crawl_vitalki.py` lines 77-139), including the per-article
`try`/`except` blocks. -/
def iterEvents (jl : String → Option Json) (url : String) (inp : IterInput) :
    List Event :=
  Event.logMsg ("Processing article: " ++ url) ::
  Event.fetchCall url ::
  match inp.fetch with
  | Except.error e =>
    -- `arun` raised: outer handler logs and the loop continues (no sleep).
    [Event.logMsg ("Error processing " ++ url ++ ": " ++ e)]
  | Except.ok result =>
    if result.success = false then
      -- line 89-91: log and `continue` (no writes, no sleep).
      [Event.logMsg ("Failed to crawl " ++ url ++ ": " ++ result.error_message)]
    else
      Event.writeFile (rawFilename inp.timestamp)
          (rawContentJson url result inp.timestamp) ::
      Event.logMsg "Saved raw content" ::
      match truthyStr result.extracted_content with
      | none =>
        -- no extracted content: straight to the delay.
        [Event.sleepFor (2 + inp.rand)]
      | some ec =>
        match jl ec with
        | none =>
          -- `json.JSONDecodeError` caught by the inner handler, then delay.
          Event.logMsg "Error decoding extracted content" ::
          [Event.sleepFor (2 + inp.rand)]
        | some (Json.obj fields) =>
          Event.writeFile (processedFilename inp.timestamp)
              (Json.obj (mergedFields fields url inp.timestamp
                result.metadata)) ::
          Event.logMsg "Saved processed content" ::
          [Event.sleepFor (2 + inp.rand)]
        | some _ =>
          -- `.update` on a non-dict raises `AttributeError`; the outer
          -- handler logs and the loop continues (no sleep).
          [Event.logMsg ("Error processing " ++ url ++ ": AttributeError")]

/-- The article loop: iteration `i` consumes `inputs i`. -/
def runArticles (jl : String → Option Json) (inputs : Nat → IterInput) :
    Nat → List String → List Event
  | _, [] => []
  | i, url :: rest =>
    iterEvents jl url (inputs i) ++ runArticles jl inputs (i + 1) rest

/-- Model of `os.getenv`. -/
def envGet (env : List (String × String)) (k : String) : Option String :=
  match env with
  | [] => none
  | (k0, v) :: rest => if k0 = k then some v else envGet rest k

/-- Truthiness of `os.getenv(k)`: set and non-empty. -/
def envTruthy (env : List (String × String)) (k : String) : Bool :=
  match envGet env k with
  | none => false
  | some v => !(v == "")

/-- Event trace of `crawl_vitalik_blog`: credential check, directory
creation, index fetch, discovery, then the article loop. -/
def crawlVitalikBlog (env : List (String × String))
    (jl : String → Option Json) (links : List (String × List Link))
    (inputs : Nat → IterInput) : List Event :=
  if envTruthy env "OPENAI_API_KEY" = false then
    -- line 33-34: raise ValueError before any directory or network work.
    [Event.logMsg "ValueError: OpenAI API key not found"]
  else
    Event.mkdir "vitalik_blog_data/raw" ::
    Event.mkdir "vitalik_blog_data/processed" ::
    Event.fetchCall "https://vitalik.eth.limo/" ::
    (runArticles jl inputs 0 (discoverArticleUrls links) ++
      [Event.logMsg "Crawling completed!"])

/-- Event trace of the `__main__` block (lines 143-150): the credential
guard with `exit(1)`, else the crawl itself. -/
def mainProgram (env : List (String × String))
    (jl : String → Option Json) (links : List (String × List Link))
    (inputs : Nat → IterInput) : List Event :=
  if envTruthy env "OPENAI_API_KEY" = false then
    [Event.logMsg "Error: OPENAI_API_KEY environment variable not set",
     Event.logMsg "Please set it with: export OPENAI_API_KEY=your-api-key",
     Event.exitCode 1]
  else
    crawlVitalikBlog env jl links inputs

/-- The sequence of contents written to a given path, in write order. -/
def writesTo (es : List Event) (p : FPath) : List Json :=
  es.filterMap (fun e =>
    match e with
    | Event.writeFile q c => if q = p then some c else none
    | _ => none)

/-- Does the trace contain a sleep event? -/
def hasSleep (es : List Event) : Bool :=
  es.any (fun e =>
    match e with
    | Event.sleepFor _ => true
    | _ => false)

/-- Is the event a write? -/
def isWrite (e : Event) : Bool :=
  match e with
  | Event.writeFile _ _ => true
  | _ => false

/-- Is the event network activity, directory creation, or a file write? -/
def isWorkEvent (e : Event) : Bool :=
  match e with
  | Event.fetchCall _ => true
  | Event.mkdir _ => true
  | Event.writeFile _ _ => true
  | _ => false

/-- Is the JSON value an object (a Python dict after `json.loads`)? -/
def isObj : Json → Bool
  | Json.obj _ => true
  | _ => false

/-! Concrete fixtures used to instantiate the theorems below. -/

/-- A `json.loads` oracle that rejects every payload. -/
def jlNone : String → Option Json := fun _ => none

/-- A `json.loads` oracle for the fixtures: the payload `OBJ` parses as an
object, `ARR` parses as an array, everything else is a decode error. -/
def jlFix : String → Option Json := fun s =>
  if s = "OBJ" then
    some (Json.obj [("title", Json.str "Extractor Title"),
      ("summary", Json.str "A summary")])
  else if s = "ARR" then some (Json.arr [])
  else none

/-- Fetch metadata fixture. -/
def mdFix : List (String × String) :=
  [("title", "Meta Title"), ("date", "2025-01-01")]

/-- Successful fetch, no extracted content. -/
def fetchOkNone : FetchResult :=
  ⟨true, "", "<html>one</html>", "text one", mdFix, none⟩

/-- Successful fetch whose extracted content parses as an object. -/
def fetchOkObj : FetchResult :=
  ⟨true, "", "<html>two</html>", "text two", mdFix, some "OBJ"⟩

/-- Successful fetch whose extracted content parses as an array. -/
def fetchOkArr : FetchResult :=
  ⟨true, "", "<html>three</html>", "text three", mdFix, some "ARR"⟩

/-- Successful fetch whose extracted content fails to parse. -/
def fetchOkBad : FetchResult :=
  ⟨true, "", "<html>four</html>", "text four", mdFix, some "not json"⟩

/-- Fetch reporting failure. -/
def fetchFail : FetchResult := ⟨false, "connection refused", "", "", [], none⟩

def inpOkNone : IterInput := ⟨Except.ok fetchOkNone, "20250101_120000", 0⟩

def inpOkObj : IterInput := ⟨Except.ok fetchOkObj, "20250101_120001", 0⟩

def inpOkArr : IterInput := ⟨Except.ok fetchOkArr, "20250101_120000", 0⟩

def inpOkBad : IterInput := ⟨Except.ok fetchOkBad, "20250101_120002", 0⟩

def inpFail : IterInput := ⟨Except.ok fetchFail, "20250101_120003", 1 / 2⟩

def inputsFail : Nat → IterInput := fun _ => inpFail

def inputsBad : Nat → IterInput := fun _ => inpOkBad

def inputsArr : Nat → IterInput := fun _ => inpOkArr

def inputsErr : Nat → IterInput :=
  fun _ => ⟨Except.error "network down", "20250101_120000", 0⟩

/-- Two iterations sharing one second-resolution timestamp: the first
article's extraction parses as an array (so its iteration aborts after the
raw write and skips the delay), the second fetch lands within the same
second. -/
def inputsCollide : Nat → IterInput :=
  fun i => if i = 0 then inpOkArr else inpOkNone

/-- Two iterations with distinct timestamps. -/
def inputsDistinct : Nat → IterInput :=
  fun i => if i = 0 then inpOkObj else inpOkBad

/-- Index-page links fixture: one matching internal link. -/
def linksW : List (String × List Link) := [("internal", [⟨"/posts/a"⟩])]

/-- Index-page links fixture: a matching link classified as external and no
internal links at all. -/
def linksExt : List (String × List Link) := [("external", [⟨"/posts/x"⟩])]

/-! Basic lemmas about the string helpers. -/

theorem hasPrefixL_append (a b p : List Char) (h : hasPrefixL a p = true) :
    hasPrefixL (a ++ b) p = true := by
  induction p generalizing a with
  | nil => simp [hasPrefixL]
  | cons q ps ih =>
    cases a with
    | nil => simp [hasPrefixL] at h
    | cons c cs =>
      simp only [hasPrefixL, Bool.and_eq_true, decide_eq_true_eq] at h
      simp only [List.cons_append, hasPrefixL, Bool.and_eq_true,
        decide_eq_true_eq]
      exact ⟨h.1, ih cs h.2⟩

theorem hasSubstrL_append_left (a b pat : List Char)
    (h : hasSubstrL b pat = true) : hasSubstrL (a ++ b) pat = true := by
  induction a with
  | nil => simpa using h
  | cons c cs ih =>
    simp only [List.cons_append, hasSubstrL, Bool.or_eq_true]
    exact Or.inr ih

theorem strContains_append (s t pat : String)
    (h : strContains t pat = true) : strContains (s ++ t) pat = true := by
  unfold strContains at h ⊢
  rw [String.data_append]
  exact hasSubstrL_append_left _ _ _ h

theorem strStartsWith_append (s t p : String)
    (h : strStartsWith s p = true) : strStartsWith (s ++ t) p = true := by
  unfold strStartsWith at h ⊢
  rw [String.data_append]
  exact hasPrefixL_append _ _ _ h

theorem base_startsWith_http :
    strStartsWith "https://vitalik.eth.limo" "http" = true := by decide

theorem resolveUrl_startsWith (href : String) :
    strStartsWith (resolveUrl href) "http" = true := by
  unfold resolveUrl
  by_cases h : strStartsWith href "http" = false
  · rw [if_pos h]
    exact strStartsWith_append _ _ _ base_startsWith_http
  · rw [if_neg h]
    exact eq_true_of_ne_false h

theorem resolveUrl_contains (href pat : String)
    (h : strContains href pat = true) :
    strContains (resolveUrl href) pat = true := by
  unfold resolveUrl
  split
  · exact strContains_append _ _ _ h
  · exact h

/-! Lemmas about the discovery loop. -/

theorem mem_discoverLoop (l : List Link) (acc : List String) (u : String)
    (h : u ∈ discoverLoop l acc) :
    u ∈ acc ∨ ∃ link, link ∈ l ∧
      (strContains link.href "/posts/" = true ∨
        strContains link.href "/general/" = true) ∧
      u = resolveUrl link.href := by
  induction l generalizing acc with
  | nil =>
    simp only [discoverLoop] at h
    exact Or.inl h
  | cons link rest ih =>
    unfold discoverLoop at h
    by_cases hc : (strContains link.href "/posts/" ||
        strContains link.href "/general/") = true
    · rw [if_pos hc] at h
      rcases ih _ h with hacc | ⟨l', hl', hm, he⟩
      · rcases List.mem_append.mp hacc with h1 | h2
        · exact Or.inl h1
        · refine Or.inr ⟨link, List.mem_cons_self _ _, ?_, ?_⟩
          · exact Bool.or_eq_true _ _ |>.mp hc
          · simpa using h2
      · exact Or.inr ⟨l', List.mem_cons_of_mem _ hl', hm, he⟩
    · rw [if_neg hc] at h
      rcases ih _ h with hacc | ⟨l', hl', hm, he⟩
      · exact Or.inl hacc
      · exact Or.inr ⟨l', List.mem_cons_of_mem _ hl', hm, he⟩

/-! Lemmas for evaluating `writesTo`. -/

@[simp] theorem writesTo_nil (p : FPath) : writesTo [] p = [] := rfl

@[simp] theorem writesTo_cons_log (m : String) (es : List Event) (p : FPath) :
    writesTo (Event.logMsg m :: es) p = writesTo es p := rfl

@[simp] theorem writesTo_cons_mkdir (d : String) (es : List Event)
    (p : FPath) : writesTo (Event.mkdir d :: es) p = writesTo es p := rfl

@[simp] theorem writesTo_cons_fetchCall (u : String) (es : List Event)
    (p : FPath) : writesTo (Event.fetchCall u :: es) p = writesTo es p := rfl

@[simp] theorem writesTo_cons_sleepFor (d : ℚ) (es : List Event) (p : FPath) :
    writesTo (Event.sleepFor d :: es) p = writesTo es p := rfl

@[simp] theorem writesTo_cons_exitCode (c : Nat) (es : List Event)
    (p : FPath) : writesTo (Event.exitCode c :: es) p = writesTo es p := rfl

@[simp] theorem writesTo_cons_write (q : FPath) (c : Json) (es : List Event)
    (p : FPath) : writesTo (Event.writeFile q c :: es) p =
      if q = p then c :: writesTo es p else writesTo es p := by
  by_cases hqp : q = p
  · simp [writesTo, List.filterMap_cons, hqp]
  · simp [writesTo, List.filterMap_cons, hqp]

@[simp] theorem writesTo_append (es1 es2 : List Event) (p : FPath) :
    writesTo (es1 ++ es2) p = writesTo es1 p ++ writesTo es2 p := by
  unfold writesTo
  exact List.filterMap_append _ _ _

/-! Filename facts. -/

theorem strConcat_inj (p s t t' : String) (h : p ++ t ++ s = p ++ t' ++ s) :
    t = t' := by
  have hd := congrArg String.data h
  simp only [String.data_append] at hd
  have h1 := List.append_cancel_right hd
  have h2 := List.append_cancel_left h1
  cases t; cases t'
  exact congrArg String.mk h2

theorem raw_ne_processed (ts ts' : String) :
    rawFilename ts ≠ processedFilename ts' := by
  intro h
  have hd : ("vitalik_blog_data/raw" : String) = "vitalik_blog_data/processed" :=
    congrArg FPath.dir h
  simp at hd

theorem rawFilename_inj (ts ts' : String) (h : rawFilename ts = rawFilename ts') :
    ts = ts' := by
  have hn : "raw_" ++ ts ++ ".json" = "raw_" ++ ts' ++ ".json" :=
    congrArg FPath.name h
  exact strConcat_inj _ _ _ _ hn

theorem processedFilename_inj (ts ts' : String)
    (h : processedFilename ts = processedFilename ts') : ts = ts' := by
  have hn : "processed_" ++ ts ++ ".json" = "processed_" ++ ts' ++ ".json" :=
    congrArg FPath.name h
  exact strConcat_inj _ _ _ _ hn

/-! Structure of one loop iteration. -/

theorem iter_write_paths (jl : String → Option Json) (url : String)
    (inp : IterInput) (p : FPath) (c : Json)
    (h : Event.writeFile p c ∈ iterEvents jl url inp) :
    p = rawFilename inp.timestamp ∨ p = processedFilename inp.timestamp := by
  obtain ⟨f, ts, rand⟩ := inp
  cases f with
  | error e => simp [iterEvents] at h
  | ok r =>
    by_cases hs : r.success = false
    · simp [iterEvents, hs] at h
    · rcases htr : truthyStr r.extracted_content with _ | ec
      · simp [iterEvents, hs, htr] at h
        exact Or.inl h.1
      · rcases hjl : jl ec with _ | j
        · simp [iterEvents, hs, htr, hjl] at h
          exact Or.inl h.1
        · cases j with
          | obj fields =>
            simp [iterEvents, hs, htr, hjl] at h
            rcases h with ⟨hp, _⟩ | ⟨hp, _⟩
            · exact Or.inl hp
            · exact Or.inr hp
          | arr l => simp [iterEvents, hs, htr, hjl] at h
                     exact Or.inl h.1
          | str s => simp [iterEvents, hs, htr, hjl] at h
                     exact Or.inl h.1
          | num n => simp [iterEvents, hs, htr, hjl] at h
                     exact Or.inl h.1
          | bool b => simp [iterEvents, hs, htr, hjl] at h
                      exact Or.inl h.1
          | null => simp [iterEvents, hs, htr, hjl] at h
                    exact Or.inl h.1

theorem iter_raw_writes (jl : String → Option Json) (url : String)
    (inp : IterInput) (r : FetchResult) (hf : inp.fetch = Except.ok r)
    (hs : r.success = true) :
    writesTo (iterEvents jl url inp) (rawFilename inp.timestamp) =
      [rawContentJson url r inp.timestamp] := by
  obtain ⟨f, ts, rand⟩ := inp
  simp only at hf
  subst hf
  have hs' : ¬ r.success = false := by simp [hs]
  rcases htr : truthyStr r.extracted_content with _ | ec
  · simp [iterEvents, hs', htr]
  · rcases hjl : jl ec with _ | j
    · simp [iterEvents, hs', htr, hjl]
    · cases j with
      | obj fields =>
        simp [iterEvents, hs', htr, hjl, (raw_ne_processed ts ts).symm]
      | arr l => simp [iterEvents, hs', htr, hjl]
      | str s => simp [iterEvents, hs', htr, hjl]
      | num n => simp [iterEvents, hs', htr, hjl]
      | bool b => simp [iterEvents, hs', htr, hjl]
      | null => simp [iterEvents, hs', htr, hjl]

theorem iter_events_raised (jl : String → Option Json) (url : String)
    (inp : IterInput) (e : String) (hf : inp.fetch = Except.error e) :
    iterEvents jl url inp =
      [Event.logMsg ("Processing article: " ++ url), Event.fetchCall url,
       Event.logMsg ("Error processing " ++ url ++ ": " ++ e)] := by
  obtain ⟨f, ts, rand⟩ := inp
  simp only at hf
  subst hf
  simp [iterEvents]

theorem iter_events_fail (jl : String → Option Json) (url : String)
    (inp : IterInput) (r : FetchResult) (hf : inp.fetch = Except.ok r)
    (hs : r.success = false) :
    iterEvents jl url inp =
      [Event.logMsg ("Processing article: " ++ url), Event.fetchCall url,
       Event.logMsg ("Failed to crawl " ++ url ++ ": " ++ r.error_message)] := by
  obtain ⟨f, ts, rand⟩ := inp
  simp only at hf
  subst hf
  simp [iterEvents, hs]

theorem iter_events_no_extract (jl : String → Option Json) (url : String)
    (inp : IterInput) (r : FetchResult) (hf : inp.fetch = Except.ok r)
    (hs : r.success = true) (he : truthyStr r.extracted_content = none) :
    iterEvents jl url inp =
      [Event.logMsg ("Processing article: " ++ url), Event.fetchCall url,
       Event.writeFile (rawFilename inp.timestamp)
         (rawContentJson url r inp.timestamp),
       Event.logMsg "Saved raw content",
       Event.sleepFor (2 + inp.rand)] := by
  obtain ⟨f, ts, rand⟩ := inp
  simp only at hf
  subst hf
  simp [iterEvents, hs, he]

theorem iter_events_decode_fail (jl : String → Option Json) (url : String)
    (inp : IterInput) (r : FetchResult) (ec : String)
    (hf : inp.fetch = Except.ok r) (hs : r.success = true)
    (he : truthyStr r.extracted_content = some ec) (hjl : jl ec = none) :
    iterEvents jl url inp =
      [Event.logMsg ("Processing article: " ++ url), Event.fetchCall url,
       Event.writeFile (rawFilename inp.timestamp)
         (rawContentJson url r inp.timestamp),
       Event.logMsg "Saved raw content",
       Event.logMsg "Error decoding extracted content",
       Event.sleepFor (2 + inp.rand)] := by
  obtain ⟨f, ts, rand⟩ := inp
  simp only at hf he
  subst hf
  simp [iterEvents, hs, he, hjl]

theorem iter_events_extracted (jl : String → Option Json) (url : String)
    (inp : IterInput) (r : FetchResult) (ec : String)
    (fields : List (String × Json)) (hf : inp.fetch = Except.ok r)
    (hs : r.success = true) (he : truthyStr r.extracted_content = some ec)
    (hjl : jl ec = some (Json.obj fields)) :
    iterEvents jl url inp =
      [Event.logMsg ("Processing article: " ++ url), Event.fetchCall url,
       Event.writeFile (rawFilename inp.timestamp)
         (rawContentJson url r inp.timestamp),
       Event.logMsg "Saved raw content",
       Event.writeFile (processedFilename inp.timestamp)
         (Json.obj (mergedFields fields url inp.timestamp r.metadata)),
       Event.logMsg "Saved processed content",
       Event.sleepFor (2 + inp.rand)] := by
  obtain ⟨f, ts, rand⟩ := inp
  simp only at hf he
  subst hf
  simp [iterEvents, hs, he, hjl]

theorem iter_events_nonobj (jl : String → Option Json) (url : String)
    (inp : IterInput) (r : FetchResult) (ec : String) (j : Json)
    (hf : inp.fetch = Except.ok r) (hs : r.success = true)
    (he : truthyStr r.extracted_content = some ec) (hjl : jl ec = some j)
    (hno : isObj j = false) :
    iterEvents jl url inp =
      [Event.logMsg ("Processing article: " ++ url), Event.fetchCall url,
       Event.writeFile (rawFilename inp.timestamp)
         (rawContentJson url r inp.timestamp),
       Event.logMsg "Saved raw content",
       Event.logMsg ("Error processing " ++ url ++ ": AttributeError")] := by
  obtain ⟨f, ts, rand⟩ := inp
  simp only at hf he
  subst hf
  cases j with
  | obj fields => simp [isObj] at hno
  | arr l => simp [iterEvents, hs, he, hjl]
  | str s => simp [iterEvents, hs, he, hjl]
  | num n => simp [iterEvents, hs, he, hjl]
  | bool b => simp [iterEvents, hs, he, hjl]
  | null => simp [iterEvents, hs, he, hjl]

/-! Lemmas about association-list update (the model of `dict.update`). -/

theorem set_pair_eq (k0 : String) (v0 : Json) (k : String) (v : Json) :
    (if ((k0, v0) : String × Json).1 = k then (k, v) else (k0, v0)) =
      if k0 = k then (k, v) else (k0, v0) := rfl

theorem jlookup_map_set (d : List (String × Json)) (k : String) (v : Json)
    (hc : containsKey d k = true) :
    jlookup (d.map (fun p => if p.1 = k then (k, v) else p)) k = some v := by
  induction d with
  | nil => simp [containsKey] at hc
  | cons hd rest ih =>
    obtain ⟨k0, v0⟩ := hd
    rw [List.map_cons, set_pair_eq]
    by_cases h0 : k0 = k
    · rw [if_pos h0]
      simp [jlookup]
    · rw [if_neg h0]
      have hc' : containsKey rest k = true := by
        simpa [containsKey, h0] using hc
      simp [jlookup, h0, ih hc']

theorem jlookup_map_set_ne (d : List (String × Json)) (k : String) (v : Json)
    (k' : String) (hk : k ≠ k') :
    jlookup (d.map (fun p => if p.1 = k then (k, v) else p)) k' =
      jlookup d k' := by
  induction d with
  | nil => simp
  | cons hd rest ih =>
    obtain ⟨k0, v0⟩ := hd
    rw [List.map_cons, set_pair_eq]
    by_cases h0 : k0 = k
    · rw [if_pos h0]
      subst h0
      simp [jlookup, hk, ih]
    · rw [if_neg h0]
      by_cases h0' : k0 = k'
      · simp [jlookup, h0']
      · simp [jlookup, h0', ih]

theorem jlookup_append (d l : List (String × Json)) (k : String) :
    jlookup (d ++ l) k =
      match jlookup d k with
      | some v0 => some v0
      | none => jlookup l k := by
  induction d with
  | nil => simp [jlookup]
  | cons hd rest ih =>
    obtain ⟨k0, v0⟩ := hd
    by_cases h0 : k0 = k
    · simp [jlookup, h0]
    · simp [jlookup, h0, ih]

theorem jlookup_none_of_not_contains (d : List (String × Json)) (k : String)
    (hc : containsKey d k = false) : jlookup d k = none := by
  induction d with
  | nil => rfl
  | cons hd rest ih =>
    obtain ⟨k0, v0⟩ := hd
    simp only [containsKey, List.any_cons, Bool.or_eq_false_iff,
      decide_eq_false_iff_not] at hc
    simp only [jlookup, if_neg hc.1]
    exact ih hc.2

theorem jlookup_setKey_same (d : List (String × Json)) (k : String)
    (v : Json) : jlookup (setKey d k v) k = some v := by
  unfold setKey
  by_cases hc : containsKey d k = true
  · rw [if_pos hc]
    exact jlookup_map_set d k v hc
  · rw [if_neg hc]
    rw [jlookup_append]
    rw [jlookup_none_of_not_contains d k (by simpa using hc)]
    simp [jlookup]

theorem jlookup_setKey_ne (d : List (String × Json)) (k : String) (v : Json)
    (k' : String) (hk : k ≠ k') :
    jlookup (setKey d k v) k' = jlookup d k' := by
  unfold setKey
  by_cases hc : containsKey d k = true
  · rw [if_pos hc]
    exact jlookup_map_set_ne d k v k' hk
  · rw [if_neg hc]
    rw [jlookup_append]
    rcases h : jlookup d k' with _ | v0
    · simp [jlookup, hk]
    · rfl

theorem mergedFields_expand (fields : List (String × Json)) (url ts : String)
    (md : List (String × String)) :
    mergedFields fields url ts md =
      setKey (setKey (setKey (setKey fields "url" (Json.str url))
        "crawl_date" (Json.str ts))
        "title" (Json.str (dictGetD md "title" "")))
        "date_published" (Json.str (dictGetD md "date" "")) := rfl

theorem mergedFields_spec (fields : List (String × Json)) (url ts : String)
    (md : List (String × String)) :
    jlookup (mergedFields fields url ts md) "url" = some (Json.str url) ∧
    jlookup (mergedFields fields url ts md) "crawl_date" =
      some (Json.str ts) ∧
    jlookup (mergedFields fields url ts md) "title" =
      some (Json.str (dictGetD md "title" "")) ∧
    jlookup (mergedFields fields url ts md) "date_published" =
      some (Json.str (dictGetD md "date" "")) ∧
    ∀ k, k ≠ "url" → k ≠ "crawl_date" → k ≠ "title" →
      k ≠ "date_published" →
      jlookup (mergedFields fields url ts md) k = jlookup fields k := by
  rw [mergedFields_expand]
  refine ⟨?_, ?_, ?_, ?_, ?_⟩
  · rw [jlookup_setKey_ne _ _ _ _ (by decide),
      jlookup_setKey_ne _ _ _ _ (by decide),
      jlookup_setKey_ne _ _ _ _ (by decide), jlookup_setKey_same]
  · rw [jlookup_setKey_ne _ _ _ _ (by decide),
      jlookup_setKey_ne _ _ _ _ (by decide), jlookup_setKey_same]
  · rw [jlookup_setKey_ne _ _ _ _ (by decide), jlookup_setKey_same]
  · rw [jlookup_setKey_same]
  · intro k h1 h2 h3 h4
    rw [jlookup_setKey_ne _ _ _ _ (Ne.symm h4),
      jlookup_setKey_ne _ _ _ _ (Ne.symm h3),
      jlookup_setKey_ne _ _ _ _ (Ne.symm h2),
      jlookup_setKey_ne _ _ _ _ (Ne.symm h1)]

theorem writesTo_mem (es : List Event) (p : FPath) (c : Json)
    (h : c ∈ writesTo es p) : Event.writeFile p c ∈ es := by
  unfold writesTo at h
  rcases List.mem_filterMap.mp h with ⟨e, he, hfe⟩
  cases e with
  | writeFile q c0 =>
    change (if q = p then some c0 else none) = some c at hfe
    by_cases hq : q = p
    · rw [if_pos hq] at hfe
      injection hfe with h0
      subst hq
      subst h0
      exact he
    · rw [if_neg hq] at hfe
      cases hfe
  | logMsg m => simp at hfe
  | mkdir d => simp at hfe
  | fetchCall u => simp at hfe
  | sleepFor d => simp at hfe
  | exitCode c1 => simp at hfe

theorem iter_writesTo_len (jl : String → Option Json) (url : String)
    (inp : IterInput) (p : FPath) :
    (writesTo (iterEvents jl url inp) p).length ≤ 1 := by
  rcases hfe : inp.fetch with e | r
  · rw [iter_events_raised jl url inp e hfe]
    simp
  · by_cases hs : r.success = false
    · rw [iter_events_fail jl url inp r hfe hs]
      simp
    · have hs' : r.success = true := by revert hs; cases r.success <;> simp
      rcases htr : truthyStr r.extracted_content with _ | ec
      · rw [iter_events_no_extract jl url inp r hfe hs' htr]
        by_cases hp : rawFilename inp.timestamp = p <;> simp [hp]
      · rcases hjl : jl ec with _ | j
        · rw [iter_events_decode_fail jl url inp r ec hfe hs' htr hjl]
          by_cases hp : rawFilename inp.timestamp = p <;> simp [hp]
        · cases j with
          | obj fields =>
            rw [iter_events_extracted jl url inp r ec fields hfe hs' htr hjl]
            by_cases hp1 : rawFilename inp.timestamp = p
            · have hp2 : ¬ processedFilename inp.timestamp = p := by
                intro hp2
                exact raw_ne_processed inp.timestamp inp.timestamp
                  (hp1.trans hp2.symm)
              simp [hp1, hp2]
            · by_cases hp2 : processedFilename inp.timestamp = p <;>
                simp [hp1, hp2]
          | arr l =>
            rw [iter_events_nonobj jl url inp r ec _ hfe hs' htr hjl rfl]
            by_cases hp : rawFilename inp.timestamp = p <;> simp [hp]
          | str s =>
            rw [iter_events_nonobj jl url inp r ec _ hfe hs' htr hjl rfl]
            by_cases hp : rawFilename inp.timestamp = p <;> simp [hp]
          | num n =>
            rw [iter_events_nonobj jl url inp r ec _ hfe hs' htr hjl rfl]
            by_cases hp : rawFilename inp.timestamp = p <;> simp [hp]
          | bool b =>
            rw [iter_events_nonobj jl url inp r ec _ hfe hs' htr hjl rfl]
            by_cases hp : rawFilename inp.timestamp = p <;> simp [hp]
          | null =>
            rw [iter_events_nonobj jl url inp r ec _ hfe hs' htr hjl rfl]
            by_cases hp : rawFilename inp.timestamp = p <;> simp [hp]

theorem run_write_paths (jl : String → Option Json) (inputs : Nat → IterInput)
    (urls : List String) (i : Nat) (p : FPath) (c : Json)
    (h : Event.writeFile p c ∈ runArticles jl inputs i urls) :
    ∃ k, k < urls.length ∧ (p = rawFilename (inputs (i + k)).timestamp ∨
      p = processedFilename (inputs (i + k)).timestamp) := by
  induction urls generalizing i with
  | nil => simp [runArticles] at h
  | cons url rest ih =>
    rw [show runArticles jl inputs i (url :: rest) =
      iterEvents jl url (inputs i) ++ runArticles jl inputs (i + 1) rest
      from rfl] at h
    rcases List.mem_append.mp h with h1 | h2
    · exact ⟨0, by simp, iter_write_paths jl url (inputs i) p c h1⟩
    · rcases ih (i + 1) h2 with ⟨k, hk, hp⟩
      refine ⟨k + 1, by simp; omega, ?_⟩
      have heq : i + (k + 1) = i + 1 + k := by omega
      rw [heq]
      exact hp

/-! The claims. -/

/-- C1: for an article whose fetch reports success, the iteration writes
exactly one raw snapshot, at path `raw_<timestamp>.json` under the raw
directory, containing the url, the rendered markup, the derived markdown
text, the metadata mapping and the capture timestamp (the fields of
`rawContentJson`); no hypothesis is made about the extraction outcome, so
the write happens whether extraction succeeds, is empty, or fails to
parse; moreover the iteration never writes to any path other than its raw
and processed filenames. -/
theorem claim1_raw_snapshot_always_written (jl : String → Option Json)
    (url : String) (inp : IterInput) (r : FetchResult)
    (hf : inp.fetch = Except.ok r) (hs : r.success = true) :
    writesTo (iterEvents jl url inp) (rawFilename inp.timestamp) =
      [rawContentJson url r inp.timestamp] ∧
    ∀ p c, Event.writeFile p c ∈ iterEvents jl url inp →
      p = rawFilename inp.timestamp ∨ p = processedFilename inp.timestamp :=
  ⟨iter_raw_writes jl url inp r hf hs,
    fun p c h => iter_write_paths jl url inp p c h⟩

theorem claim1_witness :
    writesTo (iterEvents jlFix "https://vitalik.eth.limo/posts/a" inpOkNone)
        (rawFilename "20250101_120000") =
      [rawContentJson "https://vitalik.eth.limo/posts/a" fetchOkNone
        "20250101_120000"] :=
  (claim1_raw_snapshot_always_written jlFix "https://vitalik.eth.limo/posts/a"
    inpOkNone fetchOkNone rfl rfl).1

/-- C2: when the fetch succeeds and the extraction output parses as a JSON
object, the processed record written to disk is that object updated with
the four fields url, crawl_date, title and date_published taken from the
request url, the capture timestamp and the fetch metadata (these override
whatever the extractor inferred), while every other key keeps its
extracted value. -/
theorem claim2_processed_record_merge (jl : String → Option Json)
    (url : String) (inp : IterInput) (r : FetchResult) (ec : String)
    (fields : List (String × Json)) (hf : inp.fetch = Except.ok r)
    (hs : r.success = true) (he : r.extracted_content = some ec)
    (hne : ec ≠ "") (hjl : jl ec = some (Json.obj fields)) :
    writesTo (iterEvents jl url inp) (processedFilename inp.timestamp) =
      [Json.obj (mergedFields fields url inp.timestamp r.metadata)] ∧
    jlookup (mergedFields fields url inp.timestamp r.metadata) "url" =
      some (Json.str url) ∧
    jlookup (mergedFields fields url inp.timestamp r.metadata) "crawl_date" =
      some (Json.str inp.timestamp) ∧
    jlookup (mergedFields fields url inp.timestamp r.metadata) "title" =
      some (Json.str (dictGetD r.metadata "title" "")) ∧
    jlookup (mergedFields fields url inp.timestamp r.metadata)
      "date_published" = some (Json.str (dictGetD r.metadata "date" "")) ∧
    ∀ k, k ≠ "url" → k ≠ "crawl_date" → k ≠ "title" →
      k ≠ "date_published" →
      jlookup (mergedFields fields url inp.timestamp r.metadata) k =
        jlookup fields k := by
  have htr : truthyStr r.extracted_content = some ec := by
    rw [he]
    simp [truthyStr, hne]
  have hsh := iter_events_extracted jl url inp r ec fields hf hs htr hjl
  obtain ⟨h1, h2, h3, h4, h5⟩ :=
    mergedFields_spec fields url inp.timestamp r.metadata
  refine ⟨?_, h1, h2, h3, h4, h5⟩
  rw [hsh]
  simp [raw_ne_processed inp.timestamp inp.timestamp]

theorem claim2_witness :
    writesTo (iterEvents jlFix "https://vitalik.eth.limo/posts/b" inpOkObj)
        (processedFilename "20250101_120001") =
      [Json.obj (mergedFields
        [("title", Json.str "Extractor Title"),
         ("summary", Json.str "A summary")]
        "https://vitalik.eth.limo/posts/b" "20250101_120001" mdFix)] :=
  (claim2_processed_record_merge jlFix "https://vitalik.eth.limo/posts/b"
    inpOkObj fetchOkObj "OBJ"
    [("title", Json.str "Extractor Title"), ("summary", Json.str "A summary")]
    rfl rfl rfl (by decide) rfl).1

/-- C3: when the fetch call reports failure (success flag false), the
iteration writes no file at all, the failure is logged, and the loop
simply continues with the remaining URLs. -/
theorem claim3_fetch_failure_isolated (jl : String → Option Json)
    (inputs : Nat → IterInput) (i : Nat) (url : String)
    (rest : List String) (r : FetchResult)
    (hf : (inputs i).fetch = Except.ok r) (hs : r.success = false) :
    (∀ p, writesTo (iterEvents jl url (inputs i)) p = []) ∧
    Event.logMsg ("Failed to crawl " ++ url ++ ": " ++ r.error_message) ∈
      iterEvents jl url (inputs i) ∧
    runArticles jl inputs i (url :: rest) =
      iterEvents jl url (inputs i) ++ runArticles jl inputs (i + 1) rest := by
  have hsh := iter_events_fail jl url (inputs i) r hf hs
  refine ⟨?_, ?_, rfl⟩
  · intro p
    rw [hsh]
    rfl
  · rw [hsh]
    simp

theorem claim3_witness :
    writesTo (iterEvents jlNone "https://vitalik.eth.limo/posts/c"
        (inputsFail 0)) (rawFilename "20250101_120003") = [] :=
  (claim3_fetch_failure_isolated jlNone inputsFail 0
    "https://vitalik.eth.limo/posts/c" [] fetchFail rfl rfl).1
    (rawFilename "20250101_120003")

/-- C4: when extraction output is present but fails to parse, the decode
error is logged, no processed file is written, the raw snapshot is still
written, and the loop continues with the remaining URLs. -/
theorem claim4_decode_error_isolated (jl : String → Option Json)
    (inputs : Nat → IterInput) (i : Nat) (url : String)
    (rest : List String) (r : FetchResult) (ec : String)
    (hf : (inputs i).fetch = Except.ok r) (hs : r.success = true)
    (he : r.extracted_content = some ec) (hne : ec ≠ "")
    (hjl : jl ec = none) :
    writesTo (iterEvents jl url (inputs i))
        (rawFilename (inputs i).timestamp) =
      [rawContentJson url r (inputs i).timestamp] ∧
    writesTo (iterEvents jl url (inputs i))
      (processedFilename (inputs i).timestamp) = [] ∧
    Event.logMsg "Error decoding extracted content" ∈
      iterEvents jl url (inputs i) ∧
    runArticles jl inputs i (url :: rest) =
      iterEvents jl url (inputs i) ++ runArticles jl inputs (i + 1) rest := by
  have htr : truthyStr r.extracted_content = some ec := by
    rw [he]
    simp [truthyStr, hne]
  have hsh := iter_events_decode_fail jl url (inputs i) r ec hf hs htr hjl
  refine ⟨?_, ?_, ?_, rfl⟩
  · rw [hsh]
    simp
  · rw [hsh]
    simp [raw_ne_processed (inputs i).timestamp (inputs i).timestamp]
  · rw [hsh]
    simp

theorem claim4_witness :
    writesTo (iterEvents jlFix "https://vitalik.eth.limo/posts/d"
        (inputsBad 0)) (rawFilename "20250101_120002") =
      [rawContentJson "https://vitalik.eth.limo/posts/d" fetchOkBad
        "20250101_120002"] :=
  (claim4_decode_error_isolated jlFix inputsBad 0
    "https://vitalik.eth.limo/posts/d" [] fetchOkBad "not json"
    rfl rfl rfl (by decide) rfl).1

/-- C5: every URL produced by link discovery contains one of the two
article-section substrings and, after resolution, begins with http. -/
theorem claim5_discovered_urls_wellformed (links : List (String × List Link))
    (u : String) (h : u ∈ discoverArticleUrls links) :
    (strContains u "/posts/" = true ∨ strContains u "/general/" = true) ∧
    strStartsWith u "http" = true := by
  unfold discoverArticleUrls at h
  rcases mem_discoverLoop _ _ _ h with hacc | ⟨link, _, hm, he⟩
  · simp at hacc
  · subst he
    refine ⟨?_, resolveUrl_startsWith _⟩
    rcases hm with h1 | h1
    · exact Or.inl (resolveUrl_contains _ _ h1)
    · exact Or.inr (resolveUrl_contains _ _ h1)

theorem claim5_witness :
    (strContains "https://vitalik.eth.limo/posts/a" "/posts/" = true ∨
      strContains "https://vitalik.eth.limo/posts/a" "/general/" = true) ∧
    strStartsWith "https://vitalik.eth.limo/posts/a" "http" = true :=
  claim5_discovered_urls_wellformed linksW "https://vitalik.eth.limo/posts/a"
    (by decide)

/-- C6 counterexample: an iteration whose fetch reports failure contains no
sleep event at all — the `continue` on fetch failure skips the delay, so
the delay is not unconditional. -/
theorem claim6_counterexample_no_delay_on_failure :
    hasSleep (iterEvents jlNone "https://vitalik.eth.limo/posts/a" inpFail) =
      false := rfl

/-- C6 (amended): the driver sleeps exactly when the iteration runs to the
end of its body — fetch returned, reported success, and the merge step did
not raise; in that case the sleep is the iteration's last event and its
duration 2 + rand lies in the window [2, 3) when the random sample lies in
[0, 1); iterations whose fetch raises, reports failure, or whose merge
step raises perform no delay. -/
theorem claim6_amended_delay_conditional (jl : String → Option Json)
    (url : String) (inp : IterInput) (h0 : 0 ≤ inp.rand)
    (h1 : inp.rand < 1) :
    (hasSleep (iterEvents jl url inp) = true ↔
      ∃ r, inp.fetch = Except.ok r ∧ r.success = true ∧
        updateRaises jl r = false) ∧
    (hasSleep (iterEvents jl url inp) = true →
      (iterEvents jl url inp).getLast? =
        some (Event.sleepFor (2 + inp.rand)) ∧
      2 ≤ 2 + inp.rand ∧ 2 + inp.rand < 3) := by
  have hlo : (2 : ℚ) ≤ 2 + inp.rand := by linarith
  have hhi : 2 + inp.rand < 3 := by linarith
  rcases hfe : inp.fetch with e | r
  · rw [iter_events_raised jl url inp e hfe]
    constructor
    · constructor
      · intro hsl
        simp [hasSleep] at hsl
      · rintro ⟨r, hr, -, -⟩
        simp at hr
    · intro hsl
      simp [hasSleep] at hsl
  · by_cases hs : r.success = false
    · rw [iter_events_fail jl url inp r hfe hs]
      constructor
      · constructor
        · intro hsl
          simp [hasSleep] at hsl
        · rintro ⟨r0, hr, hs0, -⟩
          injection hr with hr0
          subst hr0
          simp [hs] at hs0
      · intro hsl
        simp [hasSleep] at hsl
    · have hs' : r.success = true := by revert hs; cases r.success <;> simp
      rcases htr : truthyStr r.extracted_content with _ | ec
      · rw [iter_events_no_extract jl url inp r hfe hs' htr]
        refine ⟨⟨fun _ => ⟨r, rfl, hs', by simp [updateRaises, htr]⟩,
          fun _ => by simp [hasSleep]⟩, fun _ => ⟨rfl, hlo, hhi⟩⟩
      · rcases hjl : jl ec with _ | j
        · rw [iter_events_decode_fail jl url inp r ec hfe hs' htr hjl]
          refine ⟨⟨fun _ => ⟨r, rfl, hs', by simp [updateRaises, htr, hjl]⟩,
            fun _ => by simp [hasSleep]⟩, fun _ => ⟨rfl, hlo, hhi⟩⟩
        · cases j with
          | obj fields =>
            rw [iter_events_extracted jl url inp r ec fields hfe hs' htr hjl]
            refine ⟨⟨fun _ => ⟨r, rfl, hs',
              by simp [updateRaises, htr, hjl]⟩,
              fun _ => by simp [hasSleep]⟩, fun _ => ⟨rfl, hlo, hhi⟩⟩
          | arr l =>
            rw [iter_events_nonobj jl url inp r ec _ hfe hs' htr hjl rfl]
            constructor
            · constructor
              · intro hsl
                simp [hasSleep] at hsl
              · rintro ⟨r0, hr, -, hup⟩
                injection hr with hr0
                subst hr0
                simp [updateRaises, htr, hjl] at hup
            · intro hsl
              simp [hasSleep] at hsl
          | str s =>
            rw [iter_events_nonobj jl url inp r ec _ hfe hs' htr hjl rfl]
            constructor
            · constructor
              · intro hsl
                simp [hasSleep] at hsl
              · rintro ⟨r0, hr, -, hup⟩
                injection hr with hr0
                subst hr0
                simp [updateRaises, htr, hjl] at hup
            · intro hsl
              simp [hasSleep] at hsl
          | num n =>
            rw [iter_events_nonobj jl url inp r ec _ hfe hs' htr hjl rfl]
            constructor
            · constructor
              · intro hsl
                simp [hasSleep] at hsl
              · rintro ⟨r0, hr, -, hup⟩
                injection hr with hr0
                subst hr0
                simp [updateRaises, htr, hjl] at hup
            · intro hsl
              simp [hasSleep] at hsl
          | bool b =>
            rw [iter_events_nonobj jl url inp r ec _ hfe hs' htr hjl rfl]
            constructor
            · constructor
              · intro hsl
                simp [hasSleep] at hsl
              · rintro ⟨r0, hr, -, hup⟩
                injection hr with hr0
                subst hr0
                simp [updateRaises, htr, hjl] at hup
            · intro hsl
              simp [hasSleep] at hsl
          | null =>
            rw [iter_events_nonobj jl url inp r ec _ hfe hs' htr hjl rfl]
            constructor
            · constructor
              · intro hsl
                simp [hasSleep] at hsl
              · rintro ⟨r0, hr, -, hup⟩
                injection hr with hr0
                subst hr0
                simp [updateRaises, htr, hjl] at hup
            · intro hsl
              simp [hasSleep] at hsl

theorem claim6_witness :
    (iterEvents jlNone "https://vitalik.eth.limo/posts/a" inpOkNone).getLast? =
      some (Event.sleepFor (2 + inpOkNone.rand)) ∧
    2 ≤ 2 + inpOkNone.rand ∧ 2 + inpOkNone.rand < 3 :=
  (claim6_amended_delay_conditional jlNone "https://vitalik.eth.limo/posts/a"
    inpOkNone (by norm_num [inpOkNone]) (by norm_num [inpOkNone])).2 rfl

/-- C7: when the credential is absent (or empty) the process prints the two
error lines and exits with status 1 without any network activity, directory
creation or file write; when the credential is present the run proceeds —
the two output directories are the first events, hence created before any
write, and the index page fetch happens. -/
theorem claim7_credential_guard (env : List (String × String))
    (jl : String → Option Json) (links : List (String × List Link))
    (inputs : Nat → IterInput) :
    (envTruthy env "OPENAI_API_KEY" = false →
      mainProgram env jl links inputs =
        [Event.logMsg "Error: OPENAI_API_KEY environment variable not set",
         Event.logMsg
           "Please set it with: export OPENAI_API_KEY=your-api-key",
         Event.exitCode 1] ∧
      (∀ e, e ∈ mainProgram env jl links inputs → isWorkEvent e = false) ∧
      Event.exitCode 1 ∈ mainProgram env jl links inputs) ∧
    (envTruthy env "OPENAI_API_KEY" = true →
      (∃ rest, mainProgram env jl links inputs =
        Event.mkdir "vitalik_blog_data/raw" ::
        Event.mkdir "vitalik_blog_data/processed" :: rest) ∧
      Event.fetchCall "https://vitalik.eth.limo/" ∈
        mainProgram env jl links inputs) := by
  constructor
  · intro h
    have hmp : mainProgram env jl links inputs =
        [Event.logMsg "Error: OPENAI_API_KEY environment variable not set",
         Event.logMsg
           "Please set it with: export OPENAI_API_KEY=your-api-key",
         Event.exitCode 1] := by
      unfold mainProgram
      rw [if_pos h]
    refine ⟨hmp, ?_, ?_⟩
    · intro e he
      rw [hmp] at he
      simp only [List.mem_cons, List.not_mem_nil, or_false] at he
      rcases he with he | he | he <;> subst he <;> rfl
    · rw [hmp]
      simp
  · intro h
    have hne : ¬ envTruthy env "OPENAI_API_KEY" = false := by simp [h]
    have hmp : mainProgram env jl links inputs =
        Event.mkdir "vitalik_blog_data/raw" ::
        Event.mkdir "vitalik_blog_data/processed" ::
        Event.fetchCall "https://vitalik.eth.limo/" ::
        (runArticles jl inputs 0 (discoverArticleUrls links) ++
          [Event.logMsg "Crawling completed!"]) := by
      unfold mainProgram crawlVitalikBlog
      rw [if_neg hne, if_neg hne]
    refine ⟨⟨_, hmp⟩, ?_⟩
    rw [hmp]
    simp

theorem claim7_witness :
    (mainProgram [] jlNone [] inputsErr =
      [Event.logMsg "Error: OPENAI_API_KEY environment variable not set",
       Event.logMsg "Please set it with: export OPENAI_API_KEY=your-api-key",
       Event.exitCode 1]) ∧
    (∃ rest, mainProgram [("OPENAI_API_KEY", "sk-test")] jlNone [] inputsErr =
      Event.mkdir "vitalik_blog_data/raw" ::
      Event.mkdir "vitalik_blog_data/processed" :: rest) :=
  ⟨((claim7_credential_guard [] jlNone [] inputsErr).1 rfl).1,
    ((claim7_credential_guard [("OPENAI_API_KEY", "sk-test")] jlNone []
      inputsErr).2 rfl).1⟩

/-- C8 counterexample: two articles whose captures fall in the same
second-resolution timestamp write to the same raw path (possible in a
single run because the first article's merge step raises, skipping the
inter-request delay); the second, different, snapshot overwrites the
first, so outputs of distinct articles are not always distinct files. -/
theorem claim8_counterexample_timestamp_collision :
    writesTo (runArticles jlFix inputsCollide 0
        ["https://vitalik.eth.limo/posts/a",
         "https://vitalik.eth.limo/posts/b"])
      (rawFilename "20250101_120000") =
      [rawContentJson "https://vitalik.eth.limo/posts/a" fetchOkArr
        "20250101_120000",
       rawContentJson "https://vitalik.eth.limo/posts/b" fetchOkNone
        "20250101_120000"] ∧
    rawContentJson "https://vitalik.eth.limo/posts/a" fetchOkArr
        "20250101_120000" ≠
      rawContentJson "https://vitalik.eth.limo/posts/b" fetchOkNone
        "20250101_120000" := by
  constructor
  · rfl
  · simp [rawContentJson, fetchOkArr, fetchOkNone]

/-- C8 (amended): within a single run, each raw snapshot and processed
record path receives at most one write — so files are never updated or
overwritten — provided the capture timestamps of the iterations are
pairwise distinct; when two iterations share a second-resolution
timestamp the later write lands on the same path (see the
counterexample). -/
theorem claim8_amended_no_overwrite_distinct_ts (jl : String → Option Json)
    (inputs : Nat → IterInput) (urls : List String) (i0 : Nat)
    (hdist : ∀ a b, a < urls.length → b < urls.length → a ≠ b →
      (inputs (i0 + a)).timestamp ≠ (inputs (i0 + b)).timestamp)
    (p : FPath) :
    (writesTo (runArticles jl inputs i0 urls) p).length ≤ 1 := by
  induction urls generalizing i0 with
  | nil => simp [runArticles]
  | cons url rest ih =>
    rw [show runArticles jl inputs i0 (url :: rest) =
      iterEvents jl url (inputs i0) ++ runArticles jl inputs (i0 + 1) rest
      from rfl, writesTo_append, List.length_append]
    have hdist' : ∀ a b, a < rest.length → b < rest.length → a ≠ b →
        (inputs (i0 + 1 + a)).timestamp ≠ (inputs (i0 + 1 + b)).timestamp := by
      intro a b ha hb hne
      have hx := hdist (a + 1) (b + 1) (by simp; omega) (by simp; omega)
        (by omega)
      have ha' : i0 + (a + 1) = i0 + 1 + a := by omega
      have hb' : i0 + (b + 1) = i0 + 1 + b := by omega
      rw [ha', hb'] at hx
      exact hx
    rcases h1 : writesTo (iterEvents jl url (inputs i0)) p with _ | ⟨c, cs⟩
    · simpa using ih (i0 + 1) hdist'
    · have hc : Event.writeFile p c ∈ iterEvents jl url (inputs i0) :=
        writesTo_mem _ _ _ (by rw [h1]; exact List.mem_cons_self _ _)
      have hp0 := iter_write_paths jl url (inputs i0) p c hc
      have h2 : writesTo (runArticles jl inputs (i0 + 1) rest) p = [] := by
        by_contra hne
        rcases List.exists_mem_of_ne_nil _ hne with ⟨c0, hc0⟩
        have hw := writesTo_mem _ _ _ hc0
        rcases run_write_paths jl inputs rest (i0 + 1) p c0 hw with
          ⟨k, hk, hpk⟩
        have hts : (inputs (i0 + 0)).timestamp ≠
            (inputs (i0 + (k + 1))).timestamp :=
          hdist 0 (k + 1) (by simp) (by simp; omega) (by omega)
        have heq : i0 + (k + 1) = i0 + 1 + k := by omega
        rw [heq] at hts
        rcases hp0 with hp0 | hp0 <;> rcases hpk with hpk | hpk
        · exact hts (rawFilename_inj _ _ (hp0.symm.trans hpk))
        · exact raw_ne_processed _ _ (hp0.symm.trans hpk)
        · exact raw_ne_processed _ _ (hpk.symm.trans hp0)
        · exact hts (processedFilename_inj _ _ (hp0.symm.trans hpk))
      rw [h2]
      have hlen := iter_writesTo_len jl url (inputs i0) p
      rw [h1] at hlen
      simpa using hlen

theorem claim8_witness :
    (writesTo (runArticles jlFix inputsDistinct 0
        ["https://vitalik.eth.limo/posts/a",
         "https://vitalik.eth.limo/posts/b"])
      (rawFilename "20250101_120001")).length ≤ 1 :=
  claim8_amended_no_overwrite_distinct_ts jlFix inputsDistinct
    ["https://vitalik.eth.limo/posts/a", "https://vitalik.eth.limo/posts/b"]
    0
    (by
      intro a b ha hb hne
      have ha2 : a < 2 := by simpa using ha
      have hb2 : b < 2 := by simpa using hb
      interval_cases a <;> interval_cases b <;>
        first
          | exact absurd rfl hne
          | decide)
    (rawFilename "20250101_120001")

/-- C9: when the extraction payload parses as valid JSON that is not an
object, the merge step raises, the error is caught by the generic
per-article handler and logged, no processed file is written, the raw
snapshot written earlier in the iteration persists, and the loop
continues with the remaining URLs. -/
theorem claim9_nonobject_payload_isolated (jl : String → Option Json)
    (inputs : Nat → IterInput) (i : Nat) (url : String)
    (rest : List String) (r : FetchResult) (ec : String) (j : Json)
    (hf : (inputs i).fetch = Except.ok r) (hs : r.success = true)
    (he : r.extracted_content = some ec) (hne : ec ≠ "")
    (hjl : jl ec = some j) (hno : isObj j = false) :
    writesTo (iterEvents jl url (inputs i))
        (rawFilename (inputs i).timestamp) =
      [rawContentJson url r (inputs i).timestamp] ∧
    writesTo (iterEvents jl url (inputs i))
      (processedFilename (inputs i).timestamp) = [] ∧
    Event.logMsg ("Error processing " ++ url ++ ": AttributeError") ∈
      iterEvents jl url (inputs i) ∧
    runArticles jl inputs i (url :: rest) =
      iterEvents jl url (inputs i) ++ runArticles jl inputs (i + 1) rest := by
  have htr : truthyStr r.extracted_content = some ec := by
    rw [he]
    simp [truthyStr, hne]
  have hsh := iter_events_nonobj jl url (inputs i) r ec j hf hs htr hjl hno
  refine ⟨?_, ?_, ?_, rfl⟩
  · rw [hsh]
    simp
  · rw [hsh]
    simp [raw_ne_processed (inputs i).timestamp (inputs i).timestamp]
  · rw [hsh]
    simp

theorem claim9_witness :
    writesTo (iterEvents jlFix "https://vitalik.eth.limo/posts/e"
        (inputsArr 0)) (rawFilename "20250101_120000") =
      [rawContentJson "https://vitalik.eth.limo/posts/e" fetchOkArr
        "20250101_120000"] :=
  (claim9_nonobject_payload_isolated jlFix inputsArr 0
    "https://vitalik.eth.limo/posts/e" [] fetchOkArr "ARR" (Json.arr [])
    rfl rfl rfl (by decide) rfl rfl).1

/-- C10: link discovery only draws from the links the fetch engine
classified as internal — every discovered URL resolves from some internal
link that matched the path filter, so an external link is never added —
and when there are no internal links the discovered list is empty and the
article loop performs nothing. -/
theorem claim10_only_internal_links (links : List (String × List Link))
    (jl : String → Option Json) (inputs : Nat → IterInput) :
    (linksGetD links "internal" = [] →
      discoverArticleUrls links = [] ∧
      runArticles jl inputs 0 (discoverArticleUrls links) = []) ∧
    (∀ u, u ∈ discoverArticleUrls links →
      ∃ link, link ∈ linksGetD links "internal" ∧
        (strContains link.href "/posts/" = true ∨
          strContains link.href "/general/" = true) ∧
        u = resolveUrl link.href) := by
  constructor
  · intro h
    have hd : discoverArticleUrls links = [] := by
      unfold discoverArticleUrls
      rw [h]
      rfl
    exact ⟨hd, by rw [hd]; rfl⟩
  · intro u hu
    unfold discoverArticleUrls at hu
    rcases mem_discoverLoop _ _ _ hu with hacc | h
    · simp at hacc
    · exact h

theorem claim10_witness :
    discoverArticleUrls linksExt = [] ∧
    runArticles jlNone inputsErr 0 (discoverArticleUrls linksExt) = [] :=
  (claim10_only_internal_links linksExt jlNone inputsErr).1 rfl
